import Mathlib

/-!
# File-format validation (`src/utils/fileValidate.js`)

A shallow embedding of the four exported functions of the upload validator:
`checkFileExtension`, `checkFileMime`, `checkGeoTiffValidity` and
`validateFile`, together with the JavaScript built-ins they call
(`String.prototype.split`, `Array.prototype.pop`,
`String.prototype.toLowerCase`, `Blob.prototype.slice`,
`FileReader.readAsArrayBuffer`, `DataView.prototype.getUint8`).

The asynchronous read is modelled by explicit data: a file carries its bytes
and a flag telling whether the `FileReader` fires `error` instead of `load`.
A promise that always resolves is modelled by the value it resolves to.
-/

namespace FileValidate

/-! ## Data model -/

/-- Exceptions the embedded built-ins can throw. -/
inductive JsError where
  | rangeError
  deriving DecidableEq, Repr

/-- The browser `File` object as far as the validator observes it: its `name`,
its declared `type`, its content (`bytes`, one number in `0..255` per byte) and
whether reading it fails (`readFails`: the `FileReader` fires `error`). -/
structure File where
  name : String
  type : String
  bytes : List Nat
  readFails : Bool
  deriving DecidableEq, Repr

/-- The object `{valid, error}` returned by `validateFile`; `error = none`
stands for `null`. -/
structure ValidationResult where
  valid : Bool
  error : Option String
  deriving DecidableEq, Repr

/-- What `readAsArrayBuffer` delivers: the `load` event with the buffer, or the
`error` event. -/
inductive ReadEvent where
  | load (arrayBuffer : List Nat)
  | error
  deriving DecidableEq, Repr

/-! ## JavaScript built-ins -/

/-- Worker of `split`: the first segment of `s` and the list of the segments
after it, cutting at every occurrence of `sep`. -/
def splitAux (sep : Char) : List Char → List Char × List (List Char)
  | [] => ([], [])
  | c :: cs =>
    if c = sep then ([], (splitAux sep cs).1 :: (splitAux sep cs).2)
    else (c :: (splitAux sep cs).1, (splitAux sep cs).2)

/-- `s.split(sep)` for a one-character separator: the segments of `s` between
the occurrences of `sep`, in order; never empty (`''.split('.')` is `['']`). -/
def split (s : String) (sep : Char) : List String :=
  String.mk (splitAux sep s.data).1 :: (splitAux sep s.data).2.map String.mk

/-- `xs.pop()` on a non-empty array: its last element. -/
def pop (xs : List String) (h : xs ≠ []) : String :=
  xs.getLast h

/-- `s.toLowerCase()`. The letters `A`-`Z` go to `a`-`z`; every other ASCII
character is kept. Characters outside ASCII are kept as they are: the only one
JavaScript lowers to plain ASCII is U+212A (to `k`), and `k` occurs in no entry
of the validator's tables, so every comparison the validator makes on the
lowered text has the same outcome as in JavaScript. -/
def toLowerCase (s : String) : String :=
  String.mk (s.data.map Char.toLower)

/-- `blob.slice(start, end)` for `0 ≤ start ≤ end`: the bytes at the offsets
`start .. end - 1` that exist. -/
def slice (bytes : List Nat) (start stop : Nat) : List Nat :=
  (bytes.drop start).take (stop - start)

/-- `reader.readAsArrayBuffer(blob)`: fires `load` with the bytes of the blob, or
`error` when the read fails. -/
def readAsArrayBuffer (readFails : Bool) (blob : List Nat) : ReadEvent :=
  if readFails then ReadEvent.error else ReadEvent.load blob

/-- `dataView.getUint8(i)`: the byte at offset `i`, a `RangeError` when `i` is
outside the buffer. -/
def getUint8 (arrayBuffer : List Nat) (i : Nat) : Except JsError Nat :=
  match arrayBuffer.get? i with
  | some b => Except.ok b
  | none => Except.error JsError.rangeError

/-! ## The validator -/

/-- The constant `validExtensions` of `checkFileExtension`. -/
def validExtensions : List String :=
  [".tif", ".tiff", ".png", ".jpg", ".jpeg"]

/-- The object literal `validMimeTypes` of `checkFileMime`, as a key/value
list. -/
def validMimeTypes : List (String × String) :=
  [(".tif", "image/tiff"), (".tiff", "image/tiff"), (".png", "image/png"),
   (".jpg", "image/jpeg"), (".jpeg", "image/jpeg")]

/-- The template `.${name.split('.').pop().toLowerCase()}` that all three
callers evaluate on `file.name`. -/
def fileExtension (name : String) : String :=
  "." ++ toLowerCase (pop (split name '.') (List.cons_ne_nil _ _))

/-- `checkFileExtension(file)`. -/
def checkFileExtension (file : File) : Bool :=
  validExtensions.contains (fileExtension file.name)

/-- `validMimeTypes[fileExtension]`: the value stored under the key, `none`
(`undefined`) when the key is absent. The key always starts with `.`, so no
inherited property of the object is ever hit. -/
def expectedMimeType (ext : String) : Option String :=
  validMimeTypes.lookup ext

/-- `checkFileMime(file)`: `file.type === expectedMimeType`, which is false when
the expected type is `undefined`. -/
def checkFileMime (file : File) : Bool :=
  decide (some file.type = expectedMimeType (fileExtension file.name))

/-- The body of the `try` block of `reader.onload`. -/
def onloadBody (arrayBuffer : List Nat) : Except JsError Bool := do
  let byte1 ← getUint8 arrayBuffer 0
  let byte2 ← getUint8 arrayBuffer 1
  let byte3 ← getUint8 arrayBuffer 2
  let byte4 ← getUint8 arrayBuffer 3
  let isLittleEndianTIFF :=
    byte1 == 0x49 && byte2 == 0x49 && byte3 == 0x2A && byte4 == 0x00
  let isBigEndianTIFF :=
    byte1 == 0x4D && byte2 == 0x4D && byte3 == 0x00 && byte4 == 0x2A
  pure (isLittleEndianTIFF || isBigEndianTIFF)

/-- The handler `reader.onload`: the value it passes to `resolve`; the `catch`
clause resolves with `false`. -/
def onload (arrayBuffer : List Nat) : Bool :=
  match onloadBody arrayBuffer with
  | Except.ok b => b
  | Except.error _ => false

/-- `checkGeoTiffValidity(file)`: the value the returned promise resolves to. -/
def checkGeoTiffValidity (file : File) : Bool :=
  let blob := slice file.bytes 0 4
  match readAsArrayBuffer file.readFails blob with
  | ReadEvent.load arrayBuffer => onload arrayBuffer
  | ReadEvent.error => false

/-- The message returned when the extension check fails. -/
def unsupportedExtensionMessage : String :=
  "仅支持 GeoTIFF (.tif/.tiff)、PNG (.png)、JPG (.jpg/.jpeg) 格式"

/-- The message returned when the declared-type check fails. -/
def mimeMismatchMessage : String :=
  "文件格式与后缀不匹配，请检查文件完整性"

/-- The message returned when the TIFF header check fails. -/
def invalidHeaderMessage : String :=
  "GeoTIFF 文件损坏或非标准格式，无法上传"

/-- `validateFile(file)`: the value the returned promise resolves to. -/
def validateFile (file : File) : ValidationResult :=
  if !checkFileExtension file then
    { valid := false, error := some unsupportedExtensionMessage }
  else if !checkFileMime file then
    { valid := false, error := some mimeMismatchMessage }
  else
    let fileExtension := fileExtension file.name
    if fileExtension == ".tif" || fileExtension == ".tiff" then
      let isGeoTiffValid := checkGeoTiffValidity file
      if !isGeoTiffValid then
        { valid := false, error := some invalidHeaderMessage }
      else
        { valid := true, error := none }
    else
      { valid := true, error := none }

/-! ## Specification-side definitions -/

/-- Spec-side reading of "the result of the first failing check": given the
checks in order, each with its outcome and its message, the failure result of
the first check that did not pass, and the success result when all passed. -/
def firstFailure : List (Bool × String) → ValidationResult
  | [] => { valid := true, error := none }
  | (passed, message) :: rest =>
    if passed then firstFailure rest else { valid := false, error := some message }

/-- ASCII letter-case variants of one character: `b` is `a` itself, or `a` is
one of `A`-`Z` and `b` its lower-case form, or `a` is one of `a`-`z` and `b` its
upper-case form (`Char.toLower` and `Char.toUpper` change the ASCII letters
only). Characters outside ASCII have no variant but themselves. -/
def AsciiCharCaseVariant (a b : Char) : Prop :=
  b = a ∨ b = a.toLower ∨ b = a.toUpper

/-- ASCII letter-case variants of a text: same length, and character by
character an ASCII letter-case variant. -/
def AsciiCaseVariant (e e' : String) : Prop :=
  List.Forall₂ AsciiCharCaseVariant e.data e'.data

/-- The upper-case form of a character in Unicode (`toUpperCase` of
JavaScript), given on the ASCII letters and on the dotless `ı` (U+0131), whose
upper-case form is `I`; no other character is needed here. -/
def toUpperCaseChar (c : Char) : Char :=
  if c = 'ı' then 'I' else c.toUpper

/-- Spec-side reading of "any letter-case variant" of one character, on the part
of Unicode above: an ASCII letter-case variant, or the upper-case form. Every
pair related here is a pair of letter-case variants in Unicode. -/
def UnicodeCharCaseVariant (a b : Char) : Prop :=
  AsciiCharCaseVariant a b ∨ b = toUpperCaseChar a

/-- Spec-side reading of "any letter-case variant" of a text: character by
character a letter-case variant in the sense of `UnicodeCharCaseVariant`. -/
def UnicodeCaseVariant (e e' : String) : Prop :=
  List.Forall₂ UnicodeCharCaseVariant e.data e'.data

/-! ## Characters and case -/

theorem toLower_of_upper (c : Char) (h : 65 ≤ c.toNat ∧ c.toNat ≤ 90) :
    c.toLower = Char.ofNat (c.toNat + 32) := by
  simp [Char.toLower, h]

theorem toLower_of_not_upper (c : Char) (h : ¬ (65 ≤ c.toNat ∧ c.toNat ≤ 90)) :
    c.toLower = c := by
  unfold Char.toLower
  simp only [ge_iff_le]
  rw [if_neg h]

theorem toUpper_of_lower (c : Char) (h : 97 ≤ c.toNat ∧ c.toNat ≤ 122) :
    c.toUpper = Char.ofNat (c.toNat - 32) := by
  simp [Char.toUpper, h]

theorem toUpper_of_not_lower (c : Char) (h : ¬ (97 ≤ c.toNat ∧ c.toNat ≤ 122)) :
    c.toUpper = c := by
  unfold Char.toUpper
  simp only [ge_iff_le]
  rw [if_neg h]

theorem ofNat_add_toLower (n : Nat) (h1 : 65 ≤ n) (h2 : n ≤ 90) :
    (Char.ofNat (n + 32)).toLower = Char.ofNat (n + 32) := by
  interval_cases n <;> decide

theorem ofNat_sub_toLower (n : Nat) (h1 : 97 ≤ n) (h2 : n ≤ 122) :
    (Char.ofNat (n - 32)).toLower = (Char.ofNat n).toLower := by
  interval_cases n <;> decide

theorem ofNat_add_ne_dot (n : Nat) (h1 : 65 ≤ n) (h2 : n ≤ 90) :
    Char.ofNat (n + 32) ≠ '.' := by
  interval_cases n <;> decide

theorem ofNat_sub_ne_dot (n : Nat) (h1 : 97 ≤ n) (h2 : n ≤ 122) :
    Char.ofNat (n - 32) ≠ '.' := by
  interval_cases n <;> decide

theorem toLower_toLower (c : Char) : c.toLower.toLower = c.toLower := by
  by_cases h : 65 ≤ c.toNat ∧ c.toNat ≤ 90
  · rw [toLower_of_upper c h, ofNat_add_toLower c.toNat h.1 h.2]
  · rw [toLower_of_not_upper c h, toLower_of_not_upper c h]

theorem toLower_toUpper (c : Char) : c.toUpper.toLower = c.toLower := by
  by_cases h : 97 ≤ c.toNat ∧ c.toNat ≤ 122
  · rw [toUpper_of_lower c h, ofNat_sub_toLower c.toNat h.1 h.2, Char.ofNat_toNat]
  · rw [toUpper_of_not_lower c h]

theorem toLower_eq_dot (c : Char) (h : c.toLower = '.') : c = '.' := by
  by_cases hu : 65 ≤ c.toNat ∧ c.toNat ≤ 90
  · rw [toLower_of_upper c hu] at h
    exact absurd h (ofNat_add_ne_dot c.toNat hu.1 hu.2)
  · rwa [toLower_of_not_upper c hu] at h

theorem toUpper_eq_dot (c : Char) (h : c.toUpper = '.') : c = '.' := by
  by_cases hu : 97 ≤ c.toNat ∧ c.toNat ≤ 122
  · rw [toUpper_of_lower c hu] at h
    exact absurd h (ofNat_sub_ne_dot c.toNat hu.1 hu.2)
  · rwa [toUpper_of_not_lower c hu] at h

theorem AsciiCharCaseVariant.toLower_eq {a b : Char} (h : AsciiCharCaseVariant a b) :
    b.toLower = a.toLower := by
  rcases h with rfl | rfl | rfl
  · rfl
  · exact toLower_toLower a
  · exact toLower_toUpper a

theorem AsciiCharCaseVariant.eq_dot {a b : Char} (h : AsciiCharCaseVariant a b) (hb : b = '.') :
    a = '.' := by
  rcases h with rfl | rfl | rfl
  · exact hb
  · exact toLower_eq_dot a hb
  · exact toUpper_eq_dot a hb

theorem map_toLower_of_forall₂ {l l' : List Char} (h : List.Forall₂ AsciiCharCaseVariant l l') :
    l'.map Char.toLower = l.map Char.toLower := by
  induction h with
  | nil => rfl
  | cons hab _ ih => simp [hab.toLower_eq, ih]

theorem dot_not_mem_of_forall₂ {l l' : List Char} (h : List.Forall₂ AsciiCharCaseVariant l l')
    (hl : '.' ∉ l) : '.' ∉ l' := by
  induction h with
  | nil => simp
  | cons hab _ ih =>
    simp only [List.mem_cons, not_or] at hl ⊢
    exact ⟨fun hb => hl.1 (hab.eq_dot hb.symm).symm, ih hl.2⟩

theorem AsciiCaseVariant.toLowerCase_eq {e e' : String} (h : AsciiCaseVariant e e') :
    toLowerCase e' = toLowerCase e := by
  unfold toLowerCase
  rw [map_toLower_of_forall₂ h]

theorem AsciiCaseVariant.no_dot {e e' : String} (h : AsciiCaseVariant e e')
    (he : '.' ∉ e.data) : '.' ∉ e'.data :=
  dot_not_mem_of_forall₂ h he

/-! ## Splitting at the separator -/

theorem splitAux_of_not_mem (sep : Char) (e : List Char) (h : sep ∉ e) :
    splitAux sep e = (e, []) := by
  induction e with
  | nil => rfl
  | cons c cs ih =>
    simp only [List.mem_cons, not_or] at h
    have hc : c ≠ sep := fun hc => h.1 hc.symm
    simp [splitAux, hc, ih h.2]

theorem splitAux_append_sep (sep : Char) (p e : List Char) (h : sep ∉ e) :
    splitAux sep (p ++ sep :: e) = ((splitAux sep p).1, (splitAux sep p).2 ++ [e]) := by
  induction p with
  | nil => simp [splitAux, splitAux_of_not_mem sep e h]
  | cons c cs ih =>
    by_cases hc : c = sep
    · simp [splitAux, hc, ih]
    · simp [splitAux, hc, ih]

/-- A name without separator is its own last segment. -/
theorem pop_split_of_not_mem (name : String) (h : '.' ∉ name.data) :
    pop (split name '.') (List.cons_ne_nil _ _) = name := by
  simp [pop, split, splitAux_of_not_mem '.' name.data h]

/-- The last segment of `p + '.' + e` is `e` when `e` holds no separator. -/
theorem pop_split_append (p e : String) (h : '.' ∉ e.data) :
    pop (split (p ++ "." ++ e) '.') (List.cons_ne_nil _ _) = e := by
  have hd : (p ++ "." ++ e).data = p.data ++ '.' :: e.data := by
    simp [String.data_append]
  simp [pop, split, hd, splitAux_append_sep '.' p.data e.data h]

theorem fileExtension_of_not_mem (name : String) (h : '.' ∉ name.data) :
    fileExtension name = "." ++ toLowerCase name := by
  unfold fileExtension
  rw [pop_split_of_not_mem name h]

theorem fileExtension_append (p e : String) (h : '.' ∉ e.data) :
    fileExtension (p ++ "." ++ e) = "." ++ toLowerCase e := by
  unfold fileExtension
  rw [pop_split_append p e h]

theorem dot_append_inj (x y : String) : "." ++ x = "." ++ y ↔ x = y := by
  constructor
  · intro h
    have := congrArg String.data h
    simp only [String.data_append, List.append_cancel_left_eq] at this
    exact String.ext this
  · rintro rfl; rfl

/-! ## The checks one by one -/

theorem checkFileExtension_iff (file : File) :
    checkFileExtension file = true ↔
      fileExtension file.name = ".tif" ∨ fileExtension file.name = ".tiff" ∨
      fileExtension file.name = ".png" ∨ fileExtension file.name = ".jpg" ∨
      fileExtension file.name = ".jpeg" := by
  simp [checkFileExtension, validExtensions]

theorem expectedMimeType_eq_some (ext mime : String) :
    expectedMimeType ext = some mime ↔
      ((ext = ".tif" ∨ ext = ".tiff") ∧ mime = "image/tiff") ∨
      (ext = ".png" ∧ mime = "image/png") ∨
      ((ext = ".jpg" ∨ ext = ".jpeg") ∧ mime = "image/jpeg") := by
  unfold expectedMimeType validMimeTypes
  by_cases h1 : ext = ".tif"
  · subst h1; simp [List.lookup, eq_comm]
  by_cases h2 : ext = ".tiff"
  · subst h2; simp [List.lookup, eq_comm]
  by_cases h3 : ext = ".png"
  · subst h3; simp [List.lookup, eq_comm]
  by_cases h4 : ext = ".jpg"
  · subst h4; simp [List.lookup, eq_comm]
  by_cases h5 : ext = ".jpeg"
  · subst h5; simp [List.lookup, eq_comm]
  have e1 : (ext == ".tif") = false := by simpa using h1
  have e2 : (ext == ".tiff") = false := by simpa using h2
  have e3 : (ext == ".png") = false := by simpa using h3
  have e4 : (ext == ".jpg") = false := by simpa using h4
  have e5 : (ext == ".jpeg") = false := by simpa using h5
  simp [List.lookup, e1, e2, e3, e4, e5, h1, h2, h3, h4, h5]

theorem checkFileMime_iff (file : File) :
    checkFileMime file = true ↔
      ((fileExtension file.name = ".tif" ∨ fileExtension file.name = ".tiff") ∧
        file.type = "image/tiff") ∨
      (fileExtension file.name = ".png" ∧ file.type = "image/png") ∨
      ((fileExtension file.name = ".jpg" ∨ fileExtension file.name = ".jpeg") ∧
        file.type = "image/jpeg") := by
  unfold checkFileMime
  rw [decide_eq_true_iff, eq_comm, expectedMimeType_eq_some]

/-- The buffer handed to `onload` holds fewer than four bytes: a `getUint8`
throws and the handler resolves with `false`. -/
theorem onloadBody_of_short (buf : List Nat) (h : buf.length < 4) :
    onloadBody buf = Except.error JsError.rangeError := by
  match buf, h with
  | [], _ => rfl
  | [_], _ => rfl
  | [_, _], _ => rfl
  | [_, _, _], _ => rfl

theorem onload_of_four (b1 b2 b3 b4 : Nat) (rest : List Nat) :
    onload (b1 :: b2 :: b3 :: b4 :: rest) =
      (b1 == 0x49 && b2 == 0x49 && b3 == 0x2A && b4 == 0x00 ||
       b1 == 0x4D && b2 == 0x4D && b3 == 0x00 && b4 == 0x2A) := by
  rfl

/-! ## The validator as a whole -/

/-- C1: `validateFile` returns the result of the first failing check in the
order extension allow-list, declared-type equality, TIFF header (the last one
applied only when the derived extension is `.tif` or `.tiff`), each with its own
message, and it returns `{valid: true, error: null}` exactly when no applicable
check fails. -/
theorem validateFile_first_failing_check (file : File) :
    validateFile file =
      firstFailure
        [(checkFileExtension file, unsupportedExtensionMessage),
         (checkFileMime file, mimeMismatchMessage),
         (!(fileExtension file.name == ".tif" || fileExtension file.name == ".tiff") ||
            checkGeoTiffValidity file, invalidHeaderMessage)] ∧
    (validateFile file = { valid := true, error := none } ↔
      checkFileExtension file = true ∧ checkFileMime file = true ∧
      (fileExtension file.name = ".tif" ∨ fileExtension file.name = ".tiff" →
        checkGeoTiffValidity file = true)) := by
  unfold validateFile firstFailure firstFailure firstFailure firstFailure
  cases h1 : checkFileExtension file <;> cases h2 : checkFileMime file <;>
    cases h3 : (fileExtension file.name == ".tif" || fileExtension file.name == ".tiff") <;>
    cases h4 : checkGeoTiffValidity file <;>
    simp_all

/-- C2: a `.tif`/`.tiff` file declared `image/tiff` whose read yields at least
four bytes is accepted when its first four bytes are `49 49 2A 00` or
`4D 4D 00 2A`, and gets the header-invalid message for every other four
bytes. -/
theorem validateFile_tiff_header (file : File)
    (hext : fileExtension file.name = ".tif" ∨ fileExtension file.name = ".tiff")
    (htype : file.type = "image/tiff") (hread : file.readFails = false)
    (hlen : 4 ≤ file.bytes.length) :
    validateFile file =
      if file.bytes.take 4 = [0x49, 0x49, 0x2A, 0x00] ∨
          file.bytes.take 4 = [0x4D, 0x4D, 0x00, 0x2A] then
        { valid := true, error := none }
      else
        { valid := false, error := some "GeoTIFF 文件损坏或非标准格式，无法上传" } := by
  have h1 : checkFileExtension file = true := by
    rw [checkFileExtension_iff]; tauto
  have h2 : checkFileMime file = true := by
    rw [checkFileMime_iff]; tauto
  have h3 : (fileExtension file.name == ".tif" || fileExtension file.name == ".tiff") = true := by
    simpa using hext
  obtain ⟨name, type, bytes, readFails⟩ := file
  simp only at hread hlen
  subst hread
  match bytes, hlen with
  | b1 :: b2 :: b3 :: b4 :: rest, _ =>
    have h4 : checkGeoTiffValidity ⟨name, type, b1 :: b2 :: b3 :: b4 :: rest, false⟩ =
        (b1 == 0x49 && b2 == 0x49 && b3 == 0x2A && b4 == 0x00 ||
         b1 == 0x4D && b2 == 0x4D && b3 == 0x00 && b4 == 0x2A) := rfl
    unfold validateFile
    simp only [h1, h2, h3, h4, invalidHeaderMessage]
    by_cases hle : b1 = 0x49 ∧ b2 = 0x49 ∧ b3 = 0x2A ∧ b4 = 0x00
    · obtain ⟨rfl, rfl, rfl, rfl⟩ := hle
      simp
    · by_cases hbe : b1 = 0x4D ∧ b2 = 0x4D ∧ b3 = 0x00 ∧ b4 = 0x2A
      · obtain ⟨rfl, rfl, rfl, rfl⟩ := hbe
        simp
      · have : (b1 == 0x49 && b2 == 0x49 && b3 == 0x2A && b4 == 0x00 ||
            b1 == 0x4D && b2 == 0x4D && b3 == 0x00 && b4 == 0x2A) = false := by
          simp only [Bool.or_eq_false_iff, Bool.and_eq_false_iff, beq_eq_false_iff_ne]
          constructor <;> tauto
        rw [this]
        have hl : ¬ (List.take 4 (b1 :: b2 :: b3 :: b4 :: rest) = [0x49, 0x49, 0x2A, 0x00] ∨
            List.take 4 (b1 :: b2 :: b3 :: b4 :: rest) = [0x4D, 0x4D, 0x00, 0x2A]) := by
          simp only [List.take_succ_cons, List.take_zero, List.cons.injEq, and_true]
          tauto
        rw [if_neg hl]
        rfl

/-- Instances of C2: both signatures are accepted, with or without further
bytes; `00 00 00 00` and the mixed forms `49 49 00 2A`, `4D 4D 2A 00` are
rejected with the header-invalid message. -/
theorem validateFile_tiff_header_witness :
    validateFile ⟨"a.tif", "image/tiff", [0x49, 0x49, 0x2A, 0x00], false⟩ =
      { valid := true, error := none } ∧
    validateFile ⟨"scan.TIFF", "image/tiff", [0x4D, 0x4D, 0x00, 0x2A, 0x00, 0x08], false⟩ =
      { valid := true, error := none } ∧
    validateFile ⟨"a.tif", "image/tiff", [0x00, 0x00, 0x00, 0x00], false⟩ =
      { valid := false, error := some "GeoTIFF 文件损坏或非标准格式，无法上传" } ∧
    validateFile ⟨"a.tif", "image/tiff", [0x49, 0x49, 0x00, 0x2A], false⟩ =
      { valid := false, error := some "GeoTIFF 文件损坏或非标准格式，无法上传" } ∧
    validateFile ⟨"a.tiff", "image/tiff", [0x4D, 0x4D, 0x2A, 0x00], false⟩ =
      { valid := false, error := some "GeoTIFF 文件损坏或非标准格式，无法上传" } :=
  ⟨(validateFile_tiff_header _ (by decide) rfl rfl (by decide)).trans (by decide),
   (validateFile_tiff_header _ (by decide) rfl rfl (by decide)).trans (by decide),
   (validateFile_tiff_header _ (by decide) rfl rfl (by decide)).trans (by decide),
   (validateFile_tiff_header _ (by decide) rfl rfl (by decide)).trans (by decide),
   (validateFile_tiff_header _ (by decide) rfl rfl (by decide)).trans (by decide)⟩

/-- A derived extension outside the allow-list gets the unsupported-extension
message, whatever the declared type and the bytes are. -/
theorem validateFile_of_unlisted_extension (file : File)
    (h : fileExtension file.name ∉ validExtensions) :
    validateFile file =
      { valid := false,
        error := some "仅支持 GeoTIFF (.tif/.tiff)、PNG (.png)、JPG (.jpg/.jpeg) 格式" } := by
  have h1 : checkFileExtension file = false := by
    simpa [checkFileExtension] using h
  unfold validateFile
  simp [h1, unsupportedExtensionMessage]

/-- C3 (what the code does on dot-less names): the name `png` declared
`image/png` and the name `TIFF` declared `image/tiff` with a TIFF signature are
accepted; with an empty declared type `png` gets the mismatch message and `TIFF`
with no bytes gets the header-invalid message. None of them gets the
unsupported-extension message. -/
theorem validateFile_dotless_name :
    validateFile ⟨"png", "image/png", [], false⟩ = { valid := true, error := none } ∧
    validateFile ⟨"TIFF", "image/tiff", [0x49, 0x49, 0x2A, 0x00], false⟩ =
      { valid := true, error := none } ∧
    validateFile ⟨"png", "", [], false⟩ =
      { valid := false, error := some "文件格式与后缀不匹配，请检查文件完整性" } ∧
    validateFile ⟨"TIFF", "image/tiff", [], false⟩ =
      { valid := false, error := some "GeoTIFF 文件损坏或非标准格式，无法上传" } := by
  decide

/-- C4: when the derived extension is in the allow-list and the declared type
differs from the MIME string expected for it, the result is the mismatch
message, whatever the bytes and the outcome of the read are. -/
theorem validateFile_mime_mismatch (name type : String) (bytes : List Nat) (readFails : Bool)
    (hext : fileExtension name ∈ validExtensions)
    (hne : expectedMimeType (fileExtension name) ≠ some type) :
    validateFile ⟨name, type, bytes, readFails⟩ =
      { valid := false, error := some "文件格式与后缀不匹配，请检查文件完整性" } := by
  have h1 : checkFileExtension ⟨name, type, bytes, readFails⟩ = true := by
    simpa [checkFileExtension] using hext
  have h2 : checkFileMime ⟨name, type, bytes, readFails⟩ = false := by
    unfold checkFileMime
    simp only [decide_eq_false_iff_not]
    exact fun h => hne h.symm
  unfold validateFile
  simp [h1, h2, mimeMismatchMessage]

/-- Instances of C4: a `.tif` file declared `image/png` gets the mismatch
message with a valid TIFF signature, with an invalid one and with a failing
read; so does a `.png` file declared `IMAGE/PNG`. -/
theorem validateFile_mime_mismatch_witness :
    validateFile ⟨"a.tif", "image/png", [0x49, 0x49, 0x2A, 0x00], false⟩ =
      { valid := false, error := some "文件格式与后缀不匹配，请检查文件完整性" } ∧
    validateFile ⟨"a.tif", "image/png", [0x00, 0x00, 0x00, 0x00], false⟩ =
      { valid := false, error := some "文件格式与后缀不匹配，请检查文件完整性" } ∧
    validateFile ⟨"a.tif", "", [], true⟩ =
      { valid := false, error := some "文件格式与后缀不匹配，请检查文件完整性" } ∧
    validateFile ⟨"a.png", "IMAGE/PNG", [0x89, 0x50], false⟩ =
      { valid := false, error := some "文件格式与后缀不匹配，请检查文件完整性" } :=
  ⟨validateFile_mime_mismatch "a.tif" "image/png" _ false (by decide) (by decide),
   validateFile_mime_mismatch "a.tif" "image/png" _ false (by decide) (by decide),
   validateFile_mime_mismatch "a.tif" "" [] true (by decide) (by decide),
   validateFile_mime_mismatch "a.png" "IMAGE/PNG" _ false (by decide) (by decide)⟩

/-- C5: a file whose derived extension is `.png`, `.jpg` or `.jpeg` and whose
declared type is the expected one is accepted for every byte content and every
outcome of the read. -/
theorem validateFile_png_jpeg (name type : String) (bytes : List Nat) (readFails : Bool)
    (h : (fileExtension name = ".png" ∧ type = "image/png") ∨
      ((fileExtension name = ".jpg" ∨ fileExtension name = ".jpeg") ∧ type = "image/jpeg")) :
    validateFile ⟨name, type, bytes, readFails⟩ = { valid := true, error := none } := by
  have h1 : checkFileExtension ⟨name, type, bytes, readFails⟩ = true := by
    rw [checkFileExtension_iff]; tauto
  have h2 : checkFileMime ⟨name, type, bytes, readFails⟩ = true := by
    rw [checkFileMime_iff]; tauto
  have h3 : (fileExtension name == ".tif" || fileExtension name == ".tiff") = false := by
    rcases h with ⟨h, _⟩ | ⟨h | h, _⟩ <;> rw [h] <;> decide
  unfold validateFile
  simp only [h1, h2, h3]
  rfl

/-- Instances of C5: an empty `.png`, a `.jpg` whose read fails, and a `.jpeg`
holding a TIFF signature are all accepted. -/
theorem validateFile_png_jpeg_witness :
    validateFile ⟨"a.png", "image/png", [], false⟩ = { valid := true, error := none } ∧
    validateFile ⟨"photo.JPG", "image/jpeg", [0xFF, 0xD8], true⟩ =
      { valid := true, error := none } ∧
    validateFile ⟨"b.jpeg", "image/jpeg", [0x49, 0x49, 0x2A, 0x00], false⟩ =
      { valid := true, error := none } :=
  ⟨validateFile_png_jpeg "a.png" "image/png" [] false (by decide),
   validateFile_png_jpeg "photo.JPG" "image/jpeg" _ true (by decide),
   validateFile_png_jpeg "b.jpeg" "image/jpeg" _ false (by decide)⟩

/-- C6: for a `.tif`/`.tiff` file declared `image/tiff` whose read reports an
error or whose content is shorter than four bytes, `checkGeoTiffValidity`
resolves with `false` (when the read succeeds the handler's `getUint8` throws a
`RangeError`, which the handler catches), and `validateFile` returns the
header-invalid message. -/
theorem validateFile_tiff_read_failure (file : File)
    (hext : fileExtension file.name = ".tif" ∨ fileExtension file.name = ".tiff")
    (htype : file.type = "image/tiff")
    (hfail : file.readFails = true ∨ file.bytes.length < 4) :
    checkGeoTiffValidity file = false ∧
    (file.bytes.length < 4 →
      onloadBody (slice file.bytes 0 4) = Except.error JsError.rangeError) ∧
    validateFile file =
      { valid := false, error := some "GeoTIFF 文件损坏或非标准格式，无法上传" } := by
  have h1 : checkFileExtension file = true := by
    rw [checkFileExtension_iff]; tauto
  have h2 : checkFileMime file = true := by
    rw [checkFileMime_iff]; tauto
  have h3 : (fileExtension file.name == ".tif" || fileExtension file.name == ".tiff") = true := by
    simpa using hext
  have hshort : file.bytes.length < 4 →
      onloadBody (slice file.bytes 0 4) = Except.error JsError.rangeError := by
    intro hlen
    apply onloadBody_of_short
    simp only [slice, List.drop_zero, Nat.sub_zero, List.length_take]
    omega
  have h4 : checkGeoTiffValidity file = false := by
    unfold checkGeoTiffValidity readAsArrayBuffer
    by_cases hr : file.readFails = true
    · simp [hr]
    · have hlen : file.bytes.length < 4 := by tauto
      simp [hr, onload, hshort hlen]
  refine ⟨h4, hshort, ?_⟩
  unfold validateFile
  simp only [h1, h2, h3, h4, invalidHeaderMessage]
  rfl

/-- Instances of C6: contents of 0, 1, 2 and 3 bytes (the last a prefix of the
little-endian signature), and a failing read of a well-formed TIFF. -/
theorem validateFile_tiff_read_failure_witness :
    validateFile ⟨"a.tiff", "image/tiff", [], false⟩ =
      { valid := false, error := some "GeoTIFF 文件损坏或非标准格式，无法上传" } ∧
    validateFile ⟨"a.tiff", "image/tiff", [0x49], false⟩ =
      { valid := false, error := some "GeoTIFF 文件损坏或非标准格式，无法上传" } ∧
    validateFile ⟨"a.tif", "image/tiff", [0x4D, 0x4D], false⟩ =
      { valid := false, error := some "GeoTIFF 文件损坏或非标准格式，无法上传" } ∧
    validateFile ⟨"a.tif", "image/tiff", [0x49, 0x49, 0x2A], false⟩ =
      { valid := false, error := some "GeoTIFF 文件损坏或非标准格式，无法上传" } ∧
    validateFile ⟨"a.tif", "image/tiff", [0x49, 0x49, 0x2A, 0x00], true⟩ =
      { valid := false, error := some "GeoTIFF 文件损坏或非标准格式，无法上传" } :=
  ⟨(validateFile_tiff_read_failure _ (by decide) rfl (by decide)).2.2,
   (validateFile_tiff_read_failure _ (by decide) rfl (by decide)).2.2,
   (validateFile_tiff_read_failure _ (by decide) rfl (by decide)).2.2,
   (validateFile_tiff_read_failure _ (by decide) rfl (by decide)).2.2,
   (validateFile_tiff_read_failure _ (by decide) rfl (by decide)).2.2⟩

/-- C7: in the result of `validateFile`, `error` is non-null if and only if
`valid` is false. -/
theorem validateFile_error_iff_invalid (file : File) :
    (validateFile file).error ≠ none ↔ (validateFile file).valid = false := by
  unfold validateFile
  cases h1 : checkFileExtension file <;> cases h2 : checkFileMime file <;>
    cases h3 : (fileExtension file.name == ".tif" || fileExtension file.name == ".tiff") <;>
    cases h4 : checkGeoTiffValidity file <;>
    simp_all

/-! ## The derived extension -/

theorem dot_append_eq_iff (x ext y : String) (hy : ext = "." ++ y) :
    "." ++ x = ext ↔ x = y := by
  rw [hy, dot_append_inj]

/-- C8 as stated fails: `TIF` is the upper-case form of `tıf` (dotless `ı`,
U+0131), a letter-case variant of it, yet `a.tıf` fails the extension check and
gets the unsupported-extension message while `a.TIF` passes all three checks:
`toLowerCase` leaves `ı` as it is and sends `I` to `i`. -/
theorem dotless_i_variant_changes_results :
    "TIF".data = "tıf".data.map toUpperCaseChar ∧
    UnicodeCaseVariant "tıf" "TIF" ∧
    checkFileExtension ⟨"a.tıf", "image/tiff", [0x49, 0x49, 0x2A, 0x00], false⟩ = false ∧
    checkFileExtension ⟨"a.TIF", "image/tiff", [0x49, 0x49, 0x2A, 0x00], false⟩ = true ∧
    checkFileMime ⟨"a.tıf", "image/tiff", [0x49, 0x49, 0x2A, 0x00], false⟩ = false ∧
    checkFileMime ⟨"a.TIF", "image/tiff", [0x49, 0x49, 0x2A, 0x00], false⟩ = true ∧
    validateFile ⟨"a.tıf", "image/tiff", [0x49, 0x49, 0x2A, 0x00], false⟩ =
      { valid := false,
        error := some "仅支持 GeoTIFF (.tif/.tiff)、PNG (.png)、JPG (.jpg/.jpeg) 格式" } ∧
    validateFile ⟨"a.TIF", "image/tiff", [0x49, 0x49, 0x2A, 0x00], false⟩ =
      { valid := true, error := none } ∧
    ¬ (∀ (p e e' type : String) (bytes : List Nat) (readFails : Bool),
        '.' ∉ e.data → UnicodeCaseVariant e e' →
        checkFileExtension ⟨p ++ "." ++ e', type, bytes, readFails⟩ =
          checkFileExtension ⟨p ++ "." ++ e, type, bytes, readFails⟩ ∧
        checkFileMime ⟨p ++ "." ++ e', type, bytes, readFails⟩ =
          checkFileMime ⟨p ++ "." ++ e, type, bytes, readFails⟩ ∧
        validateFile ⟨p ++ "." ++ e', type, bytes, readFails⟩ =
          validateFile ⟨p ++ "." ++ e, type, bytes, readFails⟩) := by
  have hvar : UnicodeCaseVariant "tıf" "TIF" :=
    List.Forall₂.cons (Or.inr (by decide))
      (List.Forall₂.cons (Or.inr (by decide))
        (List.Forall₂.cons (Or.inr (by decide)) List.Forall₂.nil))
  refine ⟨by decide, hvar, by decide, by decide, by decide, by decide, by decide, by decide,
    fun h => ?_⟩
  have hfg := (h "a" "tıf" "TIF" "image/tiff" [0x49, 0x49, 0x2A, 0x00] false
    (by decide) hvar).1
  revert hfg
  decide

/-- C8 (amended): replacing the text after the final `.` of the name by an
ASCII letter-case variant of it (letters `A`-`Z` against `a`-`z`, every other
character unchanged) leaves the results of `checkFileExtension`,
`checkFileMime` and `validateFile` unchanged, for the same declared type and
bytes. -/
theorem case_variant_same_results (p e e' type : String) (bytes : List Nat)
    (readFails : Bool) (hdot : '.' ∉ e.data) (hvar : AsciiCaseVariant e e') :
    checkFileExtension ⟨p ++ "." ++ e', type, bytes, readFails⟩ =
      checkFileExtension ⟨p ++ "." ++ e, type, bytes, readFails⟩ ∧
    checkFileMime ⟨p ++ "." ++ e', type, bytes, readFails⟩ =
      checkFileMime ⟨p ++ "." ++ e, type, bytes, readFails⟩ ∧
    validateFile ⟨p ++ "." ++ e', type, bytes, readFails⟩ =
      validateFile ⟨p ++ "." ++ e, type, bytes, readFails⟩ := by
  have hext : fileExtension (p ++ "." ++ e') = fileExtension (p ++ "." ++ e) := by
    rw [fileExtension_append p e hdot, fileExtension_append p e' (hvar.no_dot hdot),
      hvar.toLowerCase_eq]
  have hgeo : checkGeoTiffValidity ⟨p ++ "." ++ e', type, bytes, readFails⟩ =
      checkGeoTiffValidity ⟨p ++ "." ++ e, type, bytes, readFails⟩ := rfl
  have h1 : checkFileExtension ⟨p ++ "." ++ e', type, bytes, readFails⟩ =
      checkFileExtension ⟨p ++ "." ++ e, type, bytes, readFails⟩ := by
    simp only [checkFileExtension, hext]
  have h2 : checkFileMime ⟨p ++ "." ++ e', type, bytes, readFails⟩ =
      checkFileMime ⟨p ++ "." ++ e, type, bytes, readFails⟩ := by
    simp only [checkFileMime, hext]
  refine ⟨h1, h2, ?_⟩
  unfold validateFile
  simp only [h1, h2, hext, hgeo]

/-- Instances of C8 (amended): `photo.JPG` against `photo.jpg`, and `a.TiF`
against `a.tif`. -/
theorem case_variant_same_results_witness :
    (checkFileExtension ⟨"photo.JPG", "image/jpeg", [], false⟩ =
        checkFileExtension ⟨"photo.jpg", "image/jpeg", [], false⟩ ∧
      checkFileMime ⟨"photo.JPG", "image/jpeg", [], false⟩ =
        checkFileMime ⟨"photo.jpg", "image/jpeg", [], false⟩ ∧
      validateFile ⟨"photo.JPG", "image/jpeg", [], false⟩ =
        validateFile ⟨"photo.jpg", "image/jpeg", [], false⟩) ∧
    (checkFileExtension ⟨"a.TiF", "image/tiff", [0x4D, 0x4D, 0x00, 0x2A], false⟩ =
        checkFileExtension ⟨"a.tif", "image/tiff", [0x4D, 0x4D, 0x00, 0x2A], false⟩ ∧
      checkFileMime ⟨"a.TiF", "image/tiff", [0x4D, 0x4D, 0x00, 0x2A], false⟩ =
        checkFileMime ⟨"a.tif", "image/tiff", [0x4D, 0x4D, 0x00, 0x2A], false⟩ ∧
      validateFile ⟨"a.TiF", "image/tiff", [0x4D, 0x4D, 0x00, 0x2A], false⟩ =
        validateFile ⟨"a.tif", "image/tiff", [0x4D, 0x4D, 0x00, 0x2A], false⟩) :=
  ⟨case_variant_same_results "photo" "jpg" "JPG" "image/jpeg" [] false (by decide)
      (List.Forall₂.cons (Or.inr (Or.inr (by decide)))
        (List.Forall₂.cons (Or.inr (Or.inr (by decide)))
          (List.Forall₂.cons (Or.inr (Or.inr (by decide))) List.Forall₂.nil))),
   case_variant_same_results "a" "tif" "TiF" "image/tiff" _ false (by decide)
      (List.Forall₂.cons (Or.inr (Or.inr (by decide)))
        (List.Forall₂.cons (Or.inl (by decide))
          (List.Forall₂.cons (Or.inr (Or.inr (by decide))) List.Forall₂.nil)))⟩

/-- C9: `checkFileMime` holds exactly when the derived extension and the
declared type are one of the pairs of the table, the declared type being
compared as it is: `IMAGE/PNG`, `image/jpg`, `image/*`, `image/png; q=1` and
the empty string are rejected under every name. -/
theorem checkFileMime_exact (name type : String) (bytes : List Nat) (readFails : Bool) :
    (checkFileMime ⟨name, type, bytes, readFails⟩ = true ↔
      ((fileExtension name = ".tif" ∨ fileExtension name = ".tiff") ∧ type = "image/tiff") ∨
      (fileExtension name = ".png" ∧ type = "image/png") ∨
      ((fileExtension name = ".jpg" ∨ fileExtension name = ".jpeg") ∧ type = "image/jpeg")) ∧
    checkFileMime ⟨name, "IMAGE/PNG", bytes, readFails⟩ = false ∧
    checkFileMime ⟨name, "image/jpg", bytes, readFails⟩ = false ∧
    checkFileMime ⟨name, "image/*", bytes, readFails⟩ = false ∧
    checkFileMime ⟨name, "image/png; q=1", bytes, readFails⟩ = false ∧
    checkFileMime ⟨name, "", bytes, readFails⟩ = false := by
  refine ⟨checkFileMime_iff _, ?_, ?_, ?_, ?_, ?_⟩ <;>
    · rw [Bool.eq_false_iff, Ne, checkFileMime_iff]
      simp only
      rintro (⟨_, h⟩ | ⟨_, h⟩ | ⟨_, h⟩) <;> revert h <;> decide

/-- C10: only the text after the final `.` decides the extension check: on the
name `p + '.' + e`, with no `.` in `e`, `checkFileExtension` holds exactly when
the lower-case form of `e` is one of `tif`, `tiff`, `png`, `jpg`, `jpeg`. -/
theorem checkFileExtension_final_segment (p e type : String) (bytes : List Nat)
    (readFails : Bool) (hdot : '.' ∉ e.data) :
    checkFileExtension ⟨p ++ "." ++ e, type, bytes, readFails⟩ = true ↔
      toLowerCase e ∈ ["tif", "tiff", "png", "jpg", "jpeg"] := by
  rw [checkFileExtension_iff]
  simp only [fileExtension_append p e hdot]
  rw [dot_append_eq_iff _ ".tif" "tif" rfl, dot_append_eq_iff _ ".tiff" "tiff" rfl,
    dot_append_eq_iff _ ".png" "png" rfl, dot_append_eq_iff _ ".jpg" "jpg" rfl,
    dot_append_eq_iff _ ".jpeg" "jpeg" rfl]
  simp

/-- Instances of C10: `archive.tar.png` and `.png` pass the extension check,
`photo.png.exe` and `photo.` (empty extension) do not. -/
theorem checkFileExtension_final_segment_witness :
    checkFileExtension ⟨"archive.tar.png", "image/png", [], false⟩ = true ∧
    checkFileExtension ⟨".png", "image/png", [], false⟩ = true ∧
    checkFileExtension ⟨"photo.png.exe", "image/png", [], false⟩ = false ∧
    checkFileExtension ⟨"photo.", "image/png", [], false⟩ = false :=
  ⟨(checkFileExtension_final_segment "archive.tar" "png" "image/png" [] false
      (by decide)).mpr (by decide),
   (checkFileExtension_final_segment "" "png" "image/png" [] false
      (by decide)).mpr (by decide),
   Bool.eq_false_iff.mpr fun h =>
     absurd ((checkFileExtension_final_segment "photo.png" "exe" "image/png" [] false
       (by decide)).mp h) (by decide),
   Bool.eq_false_iff.mpr fun h =>
     absurd ((checkFileExtension_final_segment "photo" "" "image/png" [] false
       (by decide)).mp h) (by decide)⟩

/-! ## What the header check reads -/

/-- `checkGeoTiffValidity` sees the file only through its first four bytes and
the outcome of the read. -/
theorem checkGeoTiffValidity_congr (f g : File)
    (hbytes : g.bytes.take 4 = f.bytes.take 4) (hread : g.readFails = f.readFails) :
    checkGeoTiffValidity g = checkGeoTiffValidity f := by
  simp only [checkGeoTiffValidity, slice, List.drop_zero, Nat.sub_zero, hbytes, hread]

/-- `validateFile` sees the file only through its name, its declared type, its
first four bytes and the outcome of the read. -/
theorem validateFile_congr (f g : File) (hname : g.name = f.name) (htype : g.type = f.type)
    (hbytes : g.bytes.take 4 = f.bytes.take 4) (hread : g.readFails = f.readFails) :
    validateFile g = validateFile f := by
  have hgeo := checkGeoTiffValidity_congr f g hbytes hread
  have hE : checkFileExtension g = checkFileExtension f := by
    simp only [checkFileExtension, hname]
  have hM : checkFileMime g = checkFileMime f := by
    simp only [checkFileMime, hname, htype]
  unfold validateFile
  simp only [hE, hM, hgeo, hname]

/-- C11 as stated fails: two `.tif` files declared `image/tiff` with the same
name, the same declared type and the same first four bytes `49 49 2A 00`, one
read successfully and one whose read reports an error, get different results. -/
theorem same_header_different_read_outcome :
    fileExtension "a.tif" = ".tif" ∧
    validateFile ⟨"a.tif", "image/tiff", [0x49, 0x49, 0x2A, 0x00], false⟩ =
      { valid := true, error := none } ∧
    validateFile ⟨"a.tif", "image/tiff", [0x49, 0x49, 0x2A, 0x00], true⟩ =
      { valid := false, error := some "GeoTIFF 文件损坏或非标准格式，无法上传" } ∧
    ¬ (∀ f g : File,
        (fileExtension f.name = ".tif" ∨ fileExtension f.name = ".tiff") →
        f.type = "image/tiff" → g.name = f.name → g.type = f.type →
        g.bytes.take 4 = f.bytes.take 4 → validateFile g = validateFile f) := by
  refine ⟨by decide, by decide, by decide, fun h => ?_⟩
  have hfg := h ⟨"a.tif", "image/tiff", [0x49, 0x49, 0x2A, 0x00], false⟩
    ⟨"a.tif", "image/tiff", [0x49, 0x49, 0x2A, 0x00], true⟩
    (by decide) rfl rfl rfl rfl
  revert hfg
  decide

/-- C11 (amended): for a TIFF candidate (extension `.tif`/`.tiff`, declared type
`image/tiff`), two files that agree on name, declared type, their first four
bytes and the outcome of the read get the same `validateFile` result, whatever
their lengths and remaining bytes are. -/
theorem validateFile_first_four_bytes (f g : File)
    (hext : fileExtension f.name = ".tif" ∨ fileExtension f.name = ".tiff")
    (hmime : f.type = "image/tiff")
    (hname : g.name = f.name) (htype : g.type = f.type)
    (hbytes : g.bytes.take 4 = f.bytes.take 4) (hread : g.readFails = f.readFails) :
    validateFile g = validateFile f := by
  have _ := hext
  have _ := hmime
  exact validateFile_congr f g hname htype hbytes hread

/-- Instances of C11 (amended): a valid signature followed by further bytes
against the bare signature, and two files sharing an invalid header with
different tails. -/
theorem validateFile_first_four_bytes_witness :
    validateFile ⟨"a.tif", "image/tiff", [0x49, 0x49, 0x2A, 0x00, 0xFF, 0xFF, 0xFF], false⟩ =
      validateFile ⟨"a.tif", "image/tiff", [0x49, 0x49, 0x2A, 0x00], false⟩ ∧
    validateFile ⟨"b.TIFF", "image/tiff", [0x00, 0x01, 0x02, 0x03, 0x49, 0x49, 0x2A, 0x00], false⟩ =
      validateFile ⟨"b.TIFF", "image/tiff", [0x00, 0x01, 0x02, 0x03, 0x08], false⟩ :=
  ⟨validateFile_first_four_bytes
      ⟨"a.tif", "image/tiff", [0x49, 0x49, 0x2A, 0x00], false⟩
      ⟨"a.tif", "image/tiff", [0x49, 0x49, 0x2A, 0x00, 0xFF, 0xFF, 0xFF], false⟩
      (by decide) rfl rfl rfl (by decide) rfl,
   validateFile_first_four_bytes
      ⟨"b.TIFF", "image/tiff", [0x00, 0x01, 0x02, 0x03, 0x08], false⟩
      ⟨"b.TIFF", "image/tiff", [0x00, 0x01, 0x02, 0x03, 0x49, 0x49, 0x2A, 0x00], false⟩
      (by decide) rfl rfl rfl (by decide) rfl⟩

/-! ## The extension check and acceptance -/

/-- C12: `checkFileMime` implies `checkFileExtension`, so `validateFile`
accepts a file exactly when `checkFileMime` holds and, for `.tif`/`.tiff`, the
header check holds; the extension check only selects the message of a
rejection. -/
theorem checkFileMime_implies_checkFileExtension (file : File) :
    (checkFileMime file = true → checkFileExtension file = true) ∧
    ((validateFile file).valid = true ↔
      checkFileMime file = true ∧
      (fileExtension file.name = ".tif" ∨ fileExtension file.name = ".tiff" →
        checkGeoTiffValidity file = true)) := by
  have himp : checkFileMime file = true → checkFileExtension file = true := by
    rw [checkFileMime_iff, checkFileExtension_iff]
    tauto
  refine ⟨himp, ?_⟩
  unfold validateFile
  cases h1 : checkFileExtension file <;> cases h2 : checkFileMime file <;>
    cases h3 : (fileExtension file.name == ".tif" || fileExtension file.name == ".tiff") <;>
    cases h4 : checkGeoTiffValidity file <;>
    simp_all

end FileValidate
